import Mathlib

/-!
# Collaborative canvas server: shallow embedding and verification

This file embeds the state-carrying core of the collaborative drawing
server (the socket event handlers of the TypeScript server entry and the
`RoomManager` / `DrawingStateManager` modules) in Lean and proves or
refutes the specified properties of the history engine, the duplicate
suppression, the action validator, the room store and the user registry.

Conventions of the embedding:
* JavaScript numbers that hold millisecond timestamps, sizes and
  coordinates are modelled as `Int` (the server only ever compares,
  subtracts and sorts them).
* `undefined` / absent object fields are modelled as `Option`; JS
  falsiness of a number is `= 0`, of a string is `= ""`, of an object
  field is `Option.isNone` (objects and non-empty arrays are truthy,
  `[]` is truthy as well since it is an object).
* A JS `Map` (insertion ordered, unique keys) is modelled as an
  association list with `mapSet` updating in place or appending,
  matching `Map.set`, and `mapDelete` removing the key, matching
  `Map.delete`.
* `Array.prototype.sort` with comparator `(a, b) => a.timestamp - b.timestamp`
  is (per ES2019) a stable sort by ascending timestamp; it is modelled by
  `List.insertionSort` on the reflexive order `tsLE`, which is proved
  below to be sorted, a permutation, and stable (the filter lemma), the
  three properties that characterise the output of any stable sort.
* `Math.max(0, c - 1)` on a natural count is `Nat` truncated subtraction.
* `Math.floor(Math.random() * n)` is modelled by an explicit `pick`
  parameter reduced modulo `n`.
-/

namespace Flam

/-- `DrawAction` as declared in the server entry: tool name, optional
style fields, the two coordinate forms, the millisecond timestamp and
the server-stamped author fields. -/
structure DrawAction where
  tool : String
  color : Option String := none
  brushSize : Option Int := none
  isFillEnabled : Option Bool := none
  startPoint : Option (Int × Int) := none
  endPoint : Option (Int × Int) := none
  points : Option (List (Int × Int)) := none
  timestamp : Int
  userId : Option String := none
  userName : Option String := none
  deriving DecidableEq, Repr

/-- `UserInfo` as declared in the server entry. -/
structure UserInfo where
  id : String
  name : String
  color : String
  socketId : String
  joinedAt : Int
  lastActivity : Int
  deriving DecidableEq, Repr

/-- `RoomData` as declared in the server entry: snapshot blob (opaque,
modelled by a numeric token), drawing history, redo stack, member count
and the member map. -/
structure RoomData where
  canvasState : Option Nat := none
  drawingHistory : List DrawAction := []
  redoHistory : List DrawAction := []
  userCount : Nat := 0
  users : List (String × UserInfo) := []
  deriving DecidableEq, Repr

/-- The fresh room value produced by `getOrCreateRoom` when the id is
not in the store. -/
def emptyRoomData : RoomData := {}

/-! ## Association-list model of JS `Map` -/

/-- `Map.get`: first (unique) binding of the key. -/
def mapLookup {β : Type} : List (String × β) → String → Option β
  | [], _ => none
  | (k, v) :: rest, key => if k = key then some v else mapLookup rest key

/-- `Map.set`: replace the binding in place if the key is present,
otherwise append at the end (JS `Map` iteration order). -/
def mapSet {β : Type} : List (String × β) → String → β → List (String × β)
  | [], key, v => [(key, v)]
  | (k, w) :: rest, key, v =>
      if k = key then (key, v) :: rest else (k, w) :: mapSet rest key v

/-- `Map.delete`: drop the binding of the key. -/
def mapDelete {β : Type} (m : List (String × β)) (key : String) : List (String × β) :=
  m.filter (fun p => ¬ (p.1 = key))

/-! ## Conflict resolver / history engine -/

/-- The comparator order used by
`drawingHistory.sort((a, b) => a.timestamp - b.timestamp)`:
ascending millisecond timestamp. -/
def tsLE (x y : DrawAction) : Prop := x.timestamp ≤ y.timestamp

instance : DecidableRel tsLE := fun x y => Int.decLe x.timestamp y.timestamp

instance : IsTotal DrawAction tsLE := ⟨fun x y => Int.le_total x.timestamp y.timestamp⟩

instance : IsTrans DrawAction tsLE := ⟨fun _ _ _ h h' => Int.le_trans h h'⟩

/-- The stable ascending-timestamp sort performed by
`room.drawingHistory.sort((a, b) => a.timestamp - b.timestamp)`. -/
def sortByTs (l : List DrawAction) : List DrawAction := List.insertionSort tsLE l

/-- The duplicate scan of `addDrawingAction` / the `drawAction` handler:
`history.some(existing => Math.abs(existing.timestamp - action.timestamp) < 1
&& existing.tool === action.tool)`. -/
def isDuplicate (history : List DrawAction) (action : DrawAction) : Bool :=
  history.any (fun existing =>
    decide (|existing.timestamp - action.timestamp| < 1) &&
    decide (existing.tool = action.tool))

/-- `RoomManager.addDrawingAction` (rooms.js): duplicate scan, then push,
stable sort by timestamp, and unconditional redo-stack clear. Returns the
updated room and the boolean the method returns. -/
def addDrawingAction (room : RoomData) (action : DrawAction) : RoomData × Bool :=
  if isDuplicate room.drawingHistory action then
    (room, false)
  else
    ({ room with
        drawingHistory := sortByTs (room.drawingHistory ++ [action])
        redoHistory := [] },
      true)

/-- `RoomManager.undoLastAction` (rooms.js): if the history is non-empty,
pop its last element and push it onto the redo stack. -/
def undoLastAction (room : RoomData) : RoomData × Bool :=
  match room.drawingHistory.getLast? with
  | some lastAction =>
      ({ room with
          drawingHistory := room.drawingHistory.dropLast
          redoHistory := room.redoHistory ++ [lastAction] },
        true)
  | none => (room, false)

/-- `RoomManager.redoLastAction` (rooms.js): if the redo stack is
non-empty, pop its last element and push it back onto the history. -/
def redoLastAction (room : RoomData) : RoomData × Bool :=
  match room.redoHistory.getLast? with
  | some redoAction =>
      ({ room with
          drawingHistory := room.drawingHistory ++ [redoAction]
          redoHistory := room.redoHistory.dropLast },
        true)
  | none => (room, false)

/-- `RoomManager.getUndoRedoState` (rooms.js). -/
def getUndoRedoState (room : RoomData) : Bool × Bool :=
  (decide (room.drawingHistory.length > 0), decide (room.redoHistory.length > 0))

/-! ## Action validator (drawing-state.js) -/

/-- A character matched by the `[A-Fa-f0-9]` class of the hex regex. -/
def isHexChar (c : Char) : Bool :=
  c.isDigit || (('a' ≤ c) && (c ≤ 'f')) || (('A' ≤ c) && (c ≤ 'F'))

/-- `DrawingStateManager.isValidColor`: the string matches
`^#([A-Fa-f0-9]{6}|[A-Fa-f0-9]{3})$`. -/
def isValidColor (color : String) : Bool :=
  match color.data with
  | '#' :: rest => (rest.length = 6 || rest.length = 3) && rest.all isHexChar
  | _ => false

/-- The trailing color and brush-size checks of
`DrawingStateManager.validateDrawAction`, shared by both coordinate
branches: `action.color && !this.isValidColor(action.color)` rejects,
then `action.brushSize && (action.brushSize < 1 || action.brushSize > 100)`
rejects, then the action is accepted. -/
def validateStyle (action : DrawAction) : Bool :=
  if (match action.color with
      | some c => !(decide (c = "")) && !(isValidColor c)
      | none => false) then false
  else if (match action.brushSize with
      | some b => !(decide (b = 0)) && (decide (b < 1) || decide (b > 100))
      | none => false) then false
  else true

/-- `DrawingStateManager.validateDrawAction` (drawing-state.js), with the
exact sequence of early returns.  JS falsiness: `!action.tool` is
`tool = ""`, `!action.timestamp` is `timestamp = 0`; `action.color` is
falsy for an absent or empty string, `action.brushSize` is falsy for an
absent or zero size; a present `points` value is an array, so
`!action.points || !Array.isArray(action.points)` reduces to absence. -/
def validateDrawAction (action : DrawAction) : Bool :=
  if action.tool = "" ∨ action.timestamp = 0 then false
  else if action.tool = "brush" ∨ action.tool = "eraser" then
    if action.points.isNone then false else validateStyle action
  else
    if action.startPoint.isNone ∨ action.endPoint.isNone then false
    else validateStyle action

/-! ## User registry -/

/-- The fixed ten-colour palette `USER_COLORS`. -/
def USER_COLORS : List String :=
  ["#ef4444", "#f59e0b", "#10b981", "#3b82f6", "#8b5cf6",
   "#ec4899", "#14b8a6", "#f97316", "#06b6d4", "#a855f7"]

/-- `assignUserColor`: first palette colour not currently used by a room
member, otherwise a pseudo-random palette entry
(`USER_COLORS[Math.floor(Math.random() * USER_COLORS.length)]`, the
random draw modelled by the explicit `pick` argument). -/
def assignUserColor (room : RoomData) (pick : Nat) : String :=
  let usedColors := room.users.map (fun p => p.2.color)
  match USER_COLORS.find? (fun c => !(usedColors.contains c)) with
  | some availableColor => availableColor
  | none => USER_COLORS.getD (pick % USER_COLORS.length) ""

/-- JS `parseInt` on the characters of a string: skip leading
whitespace, read an optional sign, then the maximal run of decimal
digits; `NaN` (here `none`) if that run is empty. -/
def jsParseInt (cs : List Char) : Option Int :=
  let cs1 := cs.dropWhile (fun c => c = ' ' ∨ c = '\t' ∨ c = '\n' ∨ c = '\r')
  let signAndRest : Int × List Char :=
    match cs1 with
    | '-' :: rest => (-1, rest)
    | '+' :: rest => (1, rest)
    | _ => (1, cs1)
  let digits := signAndRest.2.takeWhile Char.isDigit
  if digits.isEmpty then none
  else some (signAndRest.1 *
    (digits.foldl (fun acc c => acc * 10 + (c.toNat - 48)) (0 : Nat) : Nat))

/-- The `existingNumbers` computation of `generateUserName`: keep the
member names starting with `"User "`, strip that prefix
(`name.replace('User ', '')` removes the first occurrence, which for a
name starting with `"User "` is the five-character prefix), `parseInt`
the remainder and drop the `NaN`s. -/
def existingNumbers (names : List String) : List Int :=
  (names.filter (fun name => "User ".data.isPrefixOf name.data)).filterMap
    (fun name => jsParseInt (name.data.drop 5))

/-- `generateUserName` over the list of current member names:
`existingNumbers.length > 0 ? Math.max(...existingNumbers) + 1 : 1`,
rendered as `` `User ${nextNumber}` ``. -/
def generateUserName (names : List String) : String :=
  match existingNumbers names with
  | [] => "User " ++ toString (1 : Int)
  | n :: rest => "User " ++ toString (rest.foldl max n + 1)

/-- Modelled from the spec: the data-model section's alternative reading
of name assignment, a display name `"User N"` where `N` is the smallest
positive integer not already used as the numeric suffix of a current
member's auto-generated name.  (The repository's `generateUserName`
instead uses one more than the maximum suffix; this definition exists to
compare the two.) -/
def specSmallestUnusedName (names : List String) : String :=
  let n := (((List.range (names.length + 1)).map (· + 1)).find?
    (fun n => !((existingNumbers names).contains (Int.ofNat n)))).getD 0
  "User " ++ toString (Int.ofNat n)

/-! ## Session coordinator handlers (server entry) -/

/-- The outcome of the `drawAction` socket handler: the updated room,
the updated user (`lastActivity` refresh), the action after author and
timestamp stamping, the `drawAction` payload broadcast to the other
members (if any), and the `undoRedoState` payload broadcast to all
members (if any). -/
structure DrawActionResult where
  room : RoomData
  user : Option UserInfo
  action : DrawAction
  broadcast : Option DrawAction
  undoRedoEmit : Option (Bool × Bool)
  deriving DecidableEq, Repr

/-- The stamping block at the top of the `drawAction` handler: copy the
current user's id and name onto the action, and assign `Date.now()` (the
`now` argument) when the incoming timestamp is falsy. -/
def stampAction (currentUser : Option UserInfo) (now : Int) (action : DrawAction) :
    DrawAction :=
  let stamped := match currentUser with
    | some u => { action with userId := some u.id, userName := some u.name }
    | none => action
  if stamped.timestamp = 0 then { stamped with timestamp := now } else stamped

/-- The `drawAction` handler of the server entry: stamp author info and
refresh `lastActivity`, assign `Date.now()` when the timestamp is falsy,
drop duplicates by the timestamp/tool scan, and otherwise push,
stable-sort by timestamp, clear the redo stack, broadcast the action to
the other members and the recomputed undo/redo state to everyone. -/
def drawActionHandler (room : RoomData) (currentUser : Option UserInfo)
    (now : Int) (action : DrawAction) : DrawActionResult :=
  let stamped2 := stampAction currentUser now action
  let user1 := currentUser.map (fun u => { u with lastActivity := now })
  if isDuplicate room.drawingHistory stamped2 then
    { room := room, user := user1, action := stamped2, broadcast := none, undoRedoEmit := none }
  else
    let room1 := { room with
      drawingHistory := sortByTs (room.drawingHistory ++ [stamped2])
      redoHistory := [] }
    { room := room1
      user := user1
      action := stamped2
      broadcast := some stamped2
      undoRedoEmit := some
        (decide (room1.drawingHistory.length > 0), decide (room1.redoHistory.length > 0)) }

/-- The outcome of the `requestUndo` / `requestRedo` / `clearCanvas`
handlers: the updated room, the `syncHistory` payload broadcast to all
members (if any), and the `undoRedoState` payload broadcast to all
members (if any). -/
structure HistoryOpResult where
  room : RoomData
  syncEmit : Option (List DrawAction)
  undoRedoEmit : Option (Bool × Bool)
  deriving DecidableEq, Repr

/-- The `requestUndo` handler: if the history is non-empty, pop its last
element onto the redo stack, then broadcast the rebuilt history and the
recomputed undo/redo state; otherwise do nothing. -/
def requestUndoHandler (room : RoomData) : HistoryOpResult :=
  match room.drawingHistory.getLast? with
  | some lastAction =>
      let room1 := { room with
        drawingHistory := room.drawingHistory.dropLast
        redoHistory := room.redoHistory ++ [lastAction] }
      { room := room1
        syncEmit := some room1.drawingHistory
        undoRedoEmit := some
          (decide (room1.drawingHistory.length > 0), decide (room1.redoHistory.length > 0)) }
  | none => { room := room, syncEmit := none, undoRedoEmit := none }

/-- The `requestRedo` handler: if the redo stack is non-empty, pop its
last element back onto the end of the history, then broadcast the rebuilt
history and the recomputed undo/redo state; otherwise do nothing. -/
def requestRedoHandler (room : RoomData) : HistoryOpResult :=
  match room.redoHistory.getLast? with
  | some redoAction =>
      let room1 := { room with
        drawingHistory := room.drawingHistory ++ [redoAction]
        redoHistory := room.redoHistory.dropLast }
      { room := room1
        syncEmit := some room1.drawingHistory
        undoRedoEmit := some
          (decide (room1.drawingHistory.length > 0), decide (room1.redoHistory.length > 0)) }
  | none => { room := room, syncEmit := none, undoRedoEmit := none }

/-- The `clearCanvas` handler: reset the snapshot, history and redo
stack, and broadcast the literal `(canUndo := false, canRedo := false)`
undo/redo state. -/
def clearCanvasHandler (room : RoomData) : HistoryOpResult :=
  let room1 := { room with
    canvasState := (none : Option Nat), drawingHistory := [], redoHistory := [] }
  { room := room1, syncEmit := none, undoRedoEmit := some (false, false) }

/-! ## Room store handlers (server entry) -/

/-- The per-room store `rooms : Map<string, RoomData>`. -/
abbrev RoomMap : Type := List (String × RoomData)

/-- `getOrCreateRoom`: look the id up, inserting a fresh empty room at
the end of the map when absent; returns the (possibly grown) store and
the room bound to the id. -/
def getOrCreateRoom (rooms : RoomMap) (roomId : String) : RoomMap × RoomData :=
  match mapLookup rooms roomId with
  | some room => (rooms, room)
  | none => (mapSet rooms roomId emptyRoomData, emptyRoomData)

/-- The leave-side mutation shared by the `joinRoom` and `disconnect`
handlers: delete the current user from the member map and floor the
decremented count at zero (`Math.max(0, userCount - 1)`, which on `Nat`
is truncated subtraction). -/
def leaveUpdate (room : RoomData) (currentUser : Option UserInfo) : RoomData :=
  let room1 := match currentUser with
    | some u => { room with users := mapDelete room.users u.id }
    | none => room
  { room1 with userCount := room1.userCount - 1 }

/-- The `disconnect` handler, restricted to its effect on the room
store: leave the current room, write the update back, and delete the
room from the store when it emptied and is not the default room. -/
def disconnectHandler (rooms : RoomMap) (currentRoom : String)
    (currentUser : Option UserInfo) : RoomMap :=
  let step := getOrCreateRoom rooms currentRoom
  let room2 := leaveUpdate step.2 currentUser
  let rooms2 := mapSet step.1 currentRoom room2
  if room2.userCount = 0 ∧ ¬ (currentRoom = "default") then mapDelete rooms2 currentRoom
  else rooms2

/-- The outcome of the `joinRoom` handler: the updated store, the new
current room id, the re-admitted user, and the `syncHistory` payload
unicast to the joining session (if any). -/
structure JoinRoomResult where
  rooms : RoomMap
  currentRoom : String
  currentUser : Option UserInfo
  syncToJoiner : Option (List DrawAction)

/-- The `joinRoom` handler: a no-op when the requested room is the
current one; otherwise leave the previous room (member-map delete and
floored count decrement, with no empty-room cleanup on this path), then
join `roomId || 'default'`: recompute the user's colour and
auto-generated name against the destination room, re-insert the user,
increment the count, and unicast the destination history to the joiner
when non-empty. -/
def joinRoomHandler (rooms : RoomMap) (currentRoom : String)
    (currentUser : Option UserInfo) (roomId : String) (now : Int) (pick : Nat) :
    JoinRoomResult :=
  if roomId = currentRoom then
    { rooms := rooms, currentRoom := currentRoom, currentUser := currentUser,
      syncToJoiner := none }
  else
    let step := getOrCreateRoom rooms currentRoom
    let prev2 := leaveUpdate step.2 currentUser
    let rooms2 := mapSet step.1 currentRoom prev2
    let newRoomId := if roomId = "" then "default" else roomId
    let step2 := getOrCreateRoom rooms2 newRoomId
    let userAndRoom : Option UserInfo × RoomData :=
      match currentUser with
      | some u =>
          let u1 := { u with
            color := assignUserColor step2.2 pick
            name := generateUserName (step2.2.users.map (fun p => p.2.name))
            joinedAt := now }
          (some u1, { step2.2 with users := mapSet step2.2.users u.id u1 })
      | none => (none, step2.2)
    let room2 := { userAndRoom.2 with userCount := userAndRoom.2.userCount + 1 }
    { rooms := mapSet step2.1 newRoomId room2
      currentRoom := newRoomId
      currentUser := userAndRoom.1
      syncToJoiner :=
        if room2.drawingHistory.length > 0 then some room2.drawingHistory else none }

/-! ## Sorting lemmas: the insertion sort is sorted, a permutation, and
stable (equal-timestamp entries keep their relative order, expressed by
the filter characterisation) -/

/-- Inserting into a list walks past strictly smaller timestamps only,
so the sublist of entries carrying any fixed timestamp `t` grows by the
inserted action exactly when that action carries `t`, at the front. -/
theorem filter_orderedInsert_ts (t : Int) (a : DrawAction) :
    ∀ l : List DrawAction,
      (List.orderedInsert tsLE a l).filter (fun x => decide (x.timestamp = t)) =
        (if a.timestamp = t then [a] else []) ++
          l.filter (fun x => decide (x.timestamp = t))
  | [] => by
      simp only [List.orderedInsert, List.filter, List.append_nil]
      by_cases h : a.timestamp = t <;> simp [h]
  | b :: l => by
      by_cases hab : tsLE a b
      · rw [List.orderedInsert, if_pos hab]
        by_cases ha : a.timestamp = t <;> by_cases hb : b.timestamp = t <;>
          simp [List.filter_cons, ha, hb]
      · rw [List.orderedInsert, if_neg hab]
        have hlt : b.timestamp < a.timestamp := lt_of_not_le hab
        by_cases ha : a.timestamp = t
        · have hb : ¬ b.timestamp = t := by omega
          simp [List.filter_cons, ha, hb, filter_orderedInsert_ts t a l]
        · by_cases hb : b.timestamp = t <;>
            simp [List.filter_cons, ha, hb, filter_orderedInsert_ts t a l]

/-- Stability of the history sort: for every timestamp `t`, the entries
with timestamp `t` appear in the sorted history in exactly the order in
which they appear in the unsorted history. -/
theorem filter_sortByTs (t : Int) :
    ∀ l : List DrawAction,
      (sortByTs l).filter (fun x => decide (x.timestamp = t)) =
        l.filter (fun x => decide (x.timestamp = t))
  | [] => rfl
  | a :: l => by
      rw [sortByTs, List.insertionSort]
      rw [show List.insertionSort tsLE l = sortByTs l from rfl]
      rw [filter_orderedInsert_ts t a (sortByTs l), filter_sortByTs t l]
      by_cases ha : a.timestamp = t <;> simp [List.filter_cons, ha]

/-- The sorted history is a permutation of the unsorted one. -/
theorem sortByTs_perm (l : List DrawAction) : (sortByTs l).Perm l :=
  List.perm_insertionSort tsLE l

/-- The sorted history is sorted by ascending timestamp. -/
theorem sortByTs_sorted (l : List DrawAction) : List.Sorted tsLE (sortByTs l) :=
  List.sorted_insertionSort tsLE l

/-- A duplicate submission makes `addDrawingAction` return the room
unchanged together with `false`. -/
theorem addDrawingAction_dup_eq (room : RoomData) (a : DrawAction)
    (h : isDuplicate room.drawingHistory a = true) :
    addDrawingAction room a = (room, false) := by
  simp [addDrawingAction, h]

/-! ## Claim theorems: history engine -/

/-- **C1.** For every room and incoming action, a successful
(non-duplicate) append leaves the incoming action in the history, the
entire history sorted by timestamp ascending, equal-timestamp actions in
their prior relative order (the order of the previous history with the
incoming action appended), and the redo stack empty. -/
theorem C1_append_sorted_stable_redo_cleared (room : RoomData) (a : DrawAction)
    (h : isDuplicate room.drawingHistory a = false) :
    a ∈ ((addDrawingAction room a).1).drawingHistory ∧
    List.Sorted tsLE ((addDrawingAction room a).1).drawingHistory ∧
    (∀ t : Int,
      ((addDrawingAction room a).1).drawingHistory.filter (fun x => decide (x.timestamp = t)) =
        (room.drawingHistory ++ [a]).filter (fun x => decide (x.timestamp = t))) ∧
    ((addDrawingAction room a).1).redoHistory = [] := by
  have hhist : ((addDrawingAction room a).1).drawingHistory =
      sortByTs (room.drawingHistory ++ [a]) := by
    simp [addDrawingAction, h]
  refine ⟨?_, ?_, ?_, ?_⟩
  · rw [hhist]
    exact (sortByTs_perm (room.drawingHistory ++ [a])).mem_iff.mpr (by simp)
  · rw [hhist]; exact sortByTs_sorted _
  · intro t; rw [hhist]; exact filter_sortByTs t _
  · simp [addDrawingAction, h]

/-- Witness for C1 at a concrete room (history with timestamps 3 and 5)
and an incoming action with timestamp 4. -/
theorem C1_append_sorted_stable_redo_cleared_witness :
    let roomW : RoomData :=
      { drawingHistory := [{ tool := "line", timestamp := 3 }, { tool := "rect", timestamp := 5 }]
        redoHistory := [{ tool := "brush", timestamp := 9 }] }
    let aW : DrawAction := { tool := "brush", timestamp := 4 }
    aW ∈ ((addDrawingAction roomW aW).1).drawingHistory ∧
    List.Sorted tsLE ((addDrawingAction roomW aW).1).drawingHistory ∧
    ((addDrawingAction roomW aW).1).drawingHistory.filter (fun x => decide (x.timestamp = 4)) =
      (roomW.drawingHistory ++ [aW]).filter (fun x => decide (x.timestamp = 4)) ∧
    ((addDrawingAction roomW aW).1).redoHistory = [] := by
  have h := C1_append_sorted_stable_redo_cleared
    { drawingHistory := [{ tool := "line", timestamp := 3 }, { tool := "rect", timestamp := 5 }]
      redoHistory := [{ tool := "brush", timestamp := 9 }] }
    { tool := "brush", timestamp := 4 } (by decide)
  exact ⟨h.1, h.2.1, h.2.2.1 4, h.2.2.2⟩

/-- **C2.** An incoming action is discarded as a duplicate exactly when
some existing history entry has the same tool and a timestamp within
strictly less than one millisecond; and two brush actions with identical
timestamps submitted to an empty room leave exactly one history entry. -/
theorem C2_duplicate_suppression :
    (∀ (room : RoomData) (a : DrawAction),
      (addDrawingAction room a).2 = false ↔
        ∃ e ∈ room.drawingHistory, |e.timestamp - a.timestamp| < 1 ∧ e.tool = a.tool) ∧
    (∀ a1 a2 : DrawAction, a1.tool = "brush" → a2.tool = "brush" →
      a1.timestamp = a2.timestamp →
      ((addDrawingAction (addDrawingAction emptyRoomData a1).1 a2).1).drawingHistory.length
        = 1) := by
  constructor
  · intro room a
    have hiff : isDuplicate room.drawingHistory a = true ↔
        ∃ e ∈ room.drawingHistory, |e.timestamp - a.timestamp| < 1 ∧ e.tool = a.tool := by
      simp [isDuplicate, List.any_eq_true]
    rw [← hiff]
    by_cases hd : isDuplicate room.drawingHistory a <;> simp [addDrawingAction, hd]
  · intro a1 a2 h1 h2 ht
    have e1 : (addDrawingAction emptyRoomData a1).1.drawingHistory = [a1] := by
      simp [addDrawingAction, isDuplicate, emptyRoomData, sortByTs, List.insertionSort]
    have hd : isDuplicate ((addDrawingAction emptyRoomData a1).1).drawingHistory a2 = true := by
      rw [e1]
      simp [isDuplicate, ht, h1.trans h2.symm]
    rw [addDrawingAction_dup_eq _ _ hd]
    rw [show ((addDrawingAction emptyRoomData a1).1, false).1 =
      (addDrawingAction emptyRoomData a1).1 from rfl, e1]
    rfl

/-- Witness for C2 at a concrete room with one brush entry and at two
concrete equal-timestamp brush actions. -/
theorem C2_duplicate_suppression_witness :
    ((addDrawingAction
        { drawingHistory := [{ tool := "brush", timestamp := 1000 }] }
        { tool := "brush", timestamp := 1000, points := some [(1, 1)] }).2 = false) ∧
    ((addDrawingAction
        (addDrawingAction emptyRoomData { tool := "brush", timestamp := 1000 }).1
        { tool := "brush", timestamp := 1000, points := some [(2, 2)] }).1).drawingHistory.length
      = 1 :=
  ⟨(C2_duplicate_suppression.1
      { drawingHistory := [{ tool := "brush", timestamp := 1000 }] }
      { tool := "brush", timestamp := 1000, points := some [(1, 1)] }).mpr
      ⟨{ tool := "brush", timestamp := 1000 }, by simp, by simp, rfl⟩,
    C2_duplicate_suppression.2
      { tool := "brush", timestamp := 1000 }
      { tool := "brush", timestamp := 1000, points := some [(2, 2)] } rfl rfl rfl⟩

/-- **C5.** Undo with non-empty history removes exactly the last history
element, pushes it onto the redo stack, and changes nothing else; undo
with empty history changes nothing. -/
theorem C5_undo_pops_tail (room : RoomData) :
    (room.drawingHistory = [] → undoLastAction room = (room, false)) ∧
    (∀ (l : List DrawAction) (x : DrawAction), room.drawingHistory = l ++ [x] →
      undoLastAction room =
        ({ room with drawingHistory := l, redoHistory := room.redoHistory ++ [x] }, true)) := by
  constructor
  · intro h
    simp [undoLastAction, h]
  · intro l x h
    simp [undoLastAction, h, List.getLast?_concat, List.dropLast_concat]

/-- Witness for C5: the empty-history case and a two-element history. -/
theorem C5_undo_pops_tail_witness :
    undoLastAction emptyRoomData = (emptyRoomData, false) ∧
    undoLastAction
        { drawingHistory := [{ tool := "line", timestamp := 1 }, { tool := "rect", timestamp := 2 }]
          redoHistory := [{ tool := "brush", timestamp := 7 }] } =
      ({ drawingHistory := [{ tool := "line", timestamp := 1 }]
         redoHistory := [{ tool := "brush", timestamp := 7 }, { tool := "rect", timestamp := 2 }] },
        true) :=
  ⟨(C5_undo_pops_tail emptyRoomData).1 rfl,
    (C5_undo_pops_tail
      { drawingHistory := [{ tool := "line", timestamp := 1 }, { tool := "rect", timestamp := 2 }]
        redoHistory := [{ tool := "brush", timestamp := 7 }] }).2
      [{ tool := "line", timestamp := 1 }] { tool := "rect", timestamp := 2 } rfl⟩

/-- **C7.** For a room with non-empty history, an undo immediately
followed by a redo restores the history to its pre-undo length. -/
theorem C7_undo_redo_restores_length (room : RoomData)
    (h : room.drawingHistory ≠ []) :
    ((redoLastAction (undoLastAction room).1).1).drawingHistory.length =
      room.drawingHistory.length := by
  obtain ⟨l, x, hx⟩ := (List.eq_nil_or_concat room.drawingHistory).resolve_left h
  rw [List.concat_eq_append] at hx
  have hundo : undoLastAction room =
      ({ room with drawingHistory := l, redoHistory := room.redoHistory ++ [x] }, true) := by
    simp [undoLastAction, hx, List.getLast?_concat, List.dropLast_concat]
  rw [hundo]
  simp [redoLastAction, List.getLast?_concat, hx]

/-- A concrete room with a one-element history, used by the C7 witness. -/
def roomC7W : RoomData := { drawingHistory := [{ tool := "line", timestamp := 1 }] }

/-- Witness for C7 at a one-element history. -/
theorem C7_undo_redo_restores_length_witness :
    ((redoLastAction (undoLastAction roomC7W).1).1).drawingHistory.length =
      roomC7W.drawingHistory.length :=
  C7_undo_redo_restores_length roomC7W (by decide)

/-- **C10.** A duplicate submission leaves the room state entirely
unchanged — in particular the redo stack is not cleared — both in
`RoomManager.addDrawingAction` and in the `drawAction` handler. -/
theorem C10_duplicate_leaves_state_unchanged :
    (∀ (room : RoomData) (a : DrawAction),
      isDuplicate room.drawingHistory a = true → addDrawingAction room a = (room, false)) ∧
    (∀ (room : RoomData) (u : Option UserInfo) (now : Int) (a : DrawAction),
      isDuplicate room.drawingHistory (stampAction u now a) = true →
        (drawActionHandler room u now a).room = room ∧
        (drawActionHandler room u now a).broadcast = none ∧
        (drawActionHandler room u now a).undoRedoEmit = none) := by
  constructor
  · intro room a h
    exact addDrawingAction_dup_eq room a h
  · intro room u now a h
    simp [drawActionHandler, h]

/-- Witness for C10: a duplicate brush retransmission into a room with a
pending redo entry leaves that redo entry in place. -/
theorem C10_duplicate_leaves_state_unchanged_witness :
    (addDrawingAction
        { drawingHistory := [{ tool := "brush", timestamp := 1000 }]
          redoHistory := [{ tool := "line", timestamp := 900 }] }
        { tool := "brush", timestamp := 1000 }) =
      ({ drawingHistory := [{ tool := "brush", timestamp := 1000 }]
         redoHistory := [{ tool := "line", timestamp := 900 }] }, false) ∧
    (drawActionHandler
        { drawingHistory := [{ tool := "brush", timestamp := 1000 }]
          redoHistory := [{ tool := "line", timestamp := 900 }] }
        none 2000 { tool := "brush", timestamp := 1000 }).room =
      { drawingHistory := [{ tool := "brush", timestamp := 1000 }]
        redoHistory := [{ tool := "line", timestamp := 900 }] } :=
  ⟨C10_duplicate_leaves_state_unchanged.1
      { drawingHistory := [{ tool := "brush", timestamp := 1000 }]
        redoHistory := [{ tool := "line", timestamp := 900 }] }
      { tool := "brush", timestamp := 1000 } (by decide),
    (C10_duplicate_leaves_state_unchanged.2
      { drawingHistory := [{ tool := "brush", timestamp := 1000 }]
        redoHistory := [{ tool := "line", timestamp := 900 }] }
      none 2000 { tool := "brush", timestamp := 1000 } (by decide)).1⟩

/-! ## Claim theorems: undo/redo state broadcasts -/

/-- **C6.** Whenever the draw-action, undo, redo or clear handler
broadcasts an `undoRedoState` payload, its `canUndo` component is true
exactly when the resulting room's history is non-empty and its `canRedo`
component is true exactly when the resulting room's redo stack is
non-empty. -/
theorem C6_undo_redo_state_matches_room (room : RoomData) (u : Option UserInfo)
    (now : Int) (a : DrawAction) :
    (∀ p : Bool × Bool, (drawActionHandler room u now a).undoRedoEmit = some p →
      (p.1 = true ↔ (drawActionHandler room u now a).room.drawingHistory.length > 0) ∧
      (p.2 = true ↔ (drawActionHandler room u now a).room.redoHistory.length > 0)) ∧
    (∀ p : Bool × Bool, (requestUndoHandler room).undoRedoEmit = some p →
      (p.1 = true ↔ (requestUndoHandler room).room.drawingHistory.length > 0) ∧
      (p.2 = true ↔ (requestUndoHandler room).room.redoHistory.length > 0)) ∧
    (∀ p : Bool × Bool, (requestRedoHandler room).undoRedoEmit = some p →
      (p.1 = true ↔ (requestRedoHandler room).room.drawingHistory.length > 0) ∧
      (p.2 = true ↔ (requestRedoHandler room).room.redoHistory.length > 0)) ∧
    (∀ p : Bool × Bool, (clearCanvasHandler room).undoRedoEmit = some p →
      (p.1 = true ↔ (clearCanvasHandler room).room.drawingHistory.length > 0) ∧
      (p.2 = true ↔ (clearCanvasHandler room).room.redoHistory.length > 0)) := by
  refine ⟨?_, ?_, ?_, ?_⟩
  · intro p hp
    by_cases hd : isDuplicate room.drawingHistory (stampAction u now a)
    · simp [drawActionHandler, hd] at hp
    · simp only [drawActionHandler, hd, Bool.false_eq_true, if_false,
        Option.some.injEq] at hp
      subst hp
      simp [drawActionHandler, hd]
  · intro p hp
    cases hl : room.drawingHistory.getLast? with
    | none => simp [requestUndoHandler, hl] at hp
    | some x =>
        simp only [requestUndoHandler, hl, Option.some.injEq] at hp
        subst hp
        simp [requestUndoHandler, hl]
  · intro p hp
    cases hl : room.redoHistory.getLast? with
    | none => simp [requestRedoHandler, hl] at hp
    | some x =>
        simp only [requestRedoHandler, hl, Option.some.injEq] at hp
        subst hp
        simp [requestRedoHandler, hl]
  · intro p hp
    simp only [clearCanvasHandler, Option.some.injEq] at hp
    subst hp
    simp [clearCanvasHandler]

/-- Witness for C6 on the clear handler of a concrete populated room. -/
theorem C6_undo_redo_state_matches_room_witness :
    ((false, false).1 = true ↔
      (clearCanvasHandler roomC7W).room.drawingHistory.length > 0) ∧
    ((false, false).2 = true ↔
      (clearCanvasHandler roomC7W).room.redoHistory.length > 0) :=
  (C6_undo_redo_state_matches_room roomC7W none 0 { tool := "line", timestamp := 1 }).2.2.2
    (false, false) rfl

/-! ## Claim theorems: validation -/

/-- A user as created on connection, used as concrete author input. -/
def demoUser : UserInfo :=
  { id := "u1", name := "User 1", color := "#ef4444", socketId := "u1",
    joinedAt := 0, lastActivity := 0 }

/-- A brush action with no `points` array: malformed per the validator
contract (freehand tools require `points`). -/
def malformedBrushAction : DrawAction :=
  { tool := "brush", color := some "#000000", brushSize := some 5, timestamp := 1000 }

/-- **C3.** The `drawAction` handler never invokes the validator: the
malformed brush action (no `points`) fails `validateDrawAction`, yet the
handler appends it to the room history and broadcasts it instead of
dropping it. This is the evaluation of the code at the failing input for
the code-bug record. -/
theorem C3_handler_admits_invalid_action :
    validateDrawAction malformedBrushAction = false ∧
    (drawActionHandler emptyRoomData (some demoUser) 2000 malformedBrushAction).room.drawingHistory =
      [{ malformedBrushAction with userId := some "u1", userName := some "User 1" }] ∧
    ((drawActionHandler emptyRoomData (some demoUser) 2000 malformedBrushAction).broadcast).isSome
      = true := by
  refine ⟨by decide, by decide, by decide⟩

/-- A brush action whose `points` field is present but the empty list. -/
def emptyPointsBrushAction : DrawAction :=
  { tool := "brush", timestamp := 1000, points := some [] }

/-- **C8 counterexample.** A brush action whose `points` is the empty
list passes `validateDrawAction`, contradicting the claim that it is
rejected. -/
theorem C8_counterexample_empty_points_accepted :
    emptyPointsBrushAction.tool = "brush" ∧
    emptyPointsBrushAction.points = some [] ∧
    validateDrawAction emptyPointsBrushAction = true := by
  refine ⟨rfl, rfl, by decide⟩

/-- **C8 (amended).** For brush and eraser actions the validator rejects
exactly when `points` is absent; a present `points` array is accepted
even when empty (together with the counterexample above). -/
theorem C8_amended_requires_points_presence (a : DrawAction)
    (htool : a.tool = "brush" ∨ a.tool = "eraser") (hp : a.points = none) :
    validateDrawAction a = false := by
  unfold validateDrawAction
  by_cases h0 : a.tool = "" ∨ a.timestamp = 0
  · rw [if_pos h0]
  · rw [if_neg h0, if_pos htool, hp]
    rfl

/-- A brush action with absent `points`, for the C8 witness. -/
def noPointsBrushAction : DrawAction := { tool := "brush", timestamp := 1000 }

/-- Witness for the amended C8 at a concrete brush action without
`points`. -/
theorem C8_amended_requires_points_presence_witness :
    validateDrawAction noPointsBrushAction = false :=
  C8_amended_requires_points_presence noPointsBrushAction (Or.inl rfl) rfl

/-! ## Claim theorems: user names -/

/-- **C9 counterexample.** With a single member named `"User 3"`, the
code generates `"User 4"` (maximum suffix plus one) while the smallest
unused positive suffix is 1: the generated name differs from the
spec-modelled smallest-unused name. -/
theorem C9_counterexample_not_smallest_unused :
    generateUserName ["User 3"] = "User 4" ∧
    specSmallestUnusedName ["User 3"] = "User 1" ∧
    ¬ (generateUserName ["User 3"] = specSmallestUnusedName ["User 3"]) := by
  refine ⟨by decide, by decide, by decide⟩

/-- The initial value is a lower bound of a left fold of `max`. -/
theorem le_foldl_max : ∀ (l : List Int) (n : Int), n ≤ l.foldl max n
  | [], n => le_refl n
  | a :: l, n => le_trans (le_max_left n a) (le_foldl_max l (max n a))

/-- Every member of the list is a lower bound of a left fold of `max`. -/
theorem mem_le_foldl_max : ∀ (l : List Int) (n k : Int), k ∈ l → k ≤ l.foldl max n
  | a :: l, n, k, h => by
      rcases List.mem_cons.mp h with h1 | h2
      · subst h1
        exact le_trans (le_max_right n k) (le_foldl_max l (max n k))
      · exact mem_le_foldl_max l (max n a) k h2

/-- A left fold of `max` is the initial value or a member of the list. -/
theorem foldl_max_mem : ∀ (l : List Int) (n : Int), l.foldl max n = n ∨ l.foldl max n ∈ l
  | [], _ => Or.inl rfl
  | a :: l, n => by
      rcases foldl_max_mem l (max n a) with h | h
      · rcases max_choice n a with hm | hm
        · exact Or.inl (by rw [List.foldl_cons, h, hm])
        · exact Or.inr (by rw [List.foldl_cons, h, hm]; exact List.mem_cons_self a l)
      · exact Or.inr (List.mem_cons_of_mem a h)

/-- **C9 (amended).** The auto-generated name is `"User N"` where `N` is
one greater than the **maximum** numeric suffix among the current
members' `"User k"` names (1 when there is none) — not the smallest
unused suffix. The fold below is that maximum: it bounds every parsed
suffix and is itself one of them. -/
theorem C9_amended_max_suffix_plus_one (names : List String) :
    (existingNumbers names = [] → generateUserName names = "User 1") ∧
    (∀ (n : Int) (rest : List Int), existingNumbers names = n :: rest →
      n ≤ rest.foldl max n ∧
      (∀ k ∈ rest, k ≤ rest.foldl max n) ∧
      (rest.foldl max n = n ∨ rest.foldl max n ∈ rest) ∧
      generateUserName names = "User " ++ toString (rest.foldl max n + 1)) := by
  constructor
  · intro h
    rw [show ("User 1" : String) = "User " ++ toString (1 : Int) from rfl]
    simp [generateUserName, h]
  · intro n rest h
    exact ⟨le_foldl_max rest n, fun k hk => mem_le_foldl_max rest n k hk,
      foldl_max_mem rest n, by simp [generateUserName, h]⟩

/-- Witness for the amended C9 at the single member `"User 3"`. -/
theorem C9_amended_max_suffix_plus_one_witness :
    generateUserName ["User 3"] = "User " ++ toString (([] : List Int).foldl max 3 + 1) ∧
    (3 : Int) ≤ ([] : List Int).foldl max 3 :=
  ⟨((C9_amended_max_suffix_plus_one ["User 3"]).2 3 [] (by decide)).2.2.2,
    ((C9_amended_max_suffix_plus_one ["User 3"]).2 3 [] (by decide)).1⟩

/-! ## Claim theorems: room-store cleanup -/

/-- Setting a key and looking it up yields the set value. -/
theorem mapLookup_mapSet_self {β : Type} :
    ∀ (m : List (String × β)) (k : String) (v : β),
      mapLookup (mapSet m k v) k = some v
  | [], k, v => by simp [mapSet, mapLookup]
  | (k0, w) :: rest, k, v => by
      by_cases h : k0 = k
      · simp [mapSet, h, mapLookup]
      · simp [mapSet, h, mapLookup, mapLookup_mapSet_self rest k v]

/-- Setting one key leaves lookups of other keys unchanged. -/
theorem mapLookup_mapSet_ne {β : Type} :
    ∀ (m : List (String × β)) (k k' : String) (v : β), ¬ (k' = k) →
      mapLookup (mapSet m k v) k' = mapLookup m k'
  | [], k, k', v, h => by
      have h' : ¬ k = k' := fun hh => h hh.symm
      simp [mapSet, mapLookup, h']
  | (k0, w) :: rest, k, k', v, h => by
      by_cases h0 : k0 = k
      · subst h0
        have h' : ¬ k0 = k' := fun hh => h hh.symm
        simp [mapSet, mapLookup, h']
      · simp [mapSet, h0, mapLookup, mapLookup_mapSet_ne rest k k' v h]

/-- Deleting a key makes its lookup fail. -/
theorem mapLookup_mapDelete_self {β : Type} (m : List (String × β)) (k : String) :
    mapLookup (mapDelete m k) k = none := by
  induction m with
  | nil => rfl
  | cons p rest ih =>
      by_cases h : p.1 = k
      · simpa [mapDelete, List.filter_cons, h] using ih
      · simpa [mapDelete, List.filter_cons, h, mapLookup] using ih

/-- `getOrCreateRoom` never removes an existing binding. -/
theorem isSome_mapLookup_getOrCreateRoom (rooms : RoomMap) (roomId k : String)
    (h : (mapLookup rooms k).isSome = true) :
    (mapLookup (getOrCreateRoom rooms roomId).1 k).isSome = true := by
  unfold getOrCreateRoom
  cases hL : mapLookup rooms roomId with
  | some r => simpa using h
  | none =>
      by_cases hk : k = roomId
      · subst hk
        simp [mapLookup_mapSet_self]
      · simp [mapLookup_mapSet_ne _ _ _ _ hk, h]

/-- The non-default room `"r1"` populated with the single member `u1`,
the pre-state of the room-switch counterexample. -/
def u1Ex : UserInfo :=
  { id := "u1", name := "User 1", color := "#ef4444", socketId := "u1",
    joinedAt := 0, lastActivity := 0 }

/-- A store holding only the room `"r1"` with the single member `u1`. -/
def roomsSwitchEx : RoomMap :=
  [("r1", { emptyRoomData with users := [("u1", u1Ex)], userCount := 1 })]

/-- **C4 counterexample.** The last member of the non-default room
`"r1"` switches to the default room: the leave half of the room switch
empties `"r1"`, yet the room is still present in the store (with zero
members) instead of being deleted as the claim states for every leave. -/
theorem C4_counterexample_switch_leaves_empty_room :
    mapLookup (joinRoomHandler roomsSwitchEx "r1" (some u1Ex) "default" 5 0).rooms "r1" =
      some { canvasState := none, drawingHistory := [], redoHistory := [],
             userCount := 0, users := [] } := by
  decide

/-- **C4 (amended).** Only the disconnect path performs empty-room
cleanup: a disconnect that empties a non-default room deletes it from
the store, a disconnect never deletes the default room, and the leave
half of a room switch never deletes the departed room, whatever its
resulting member count. -/
theorem C4_amended_cleanup_on_disconnect_only (rooms : RoomMap) (cur : String)
    (u : Option UserInfo) (roomId : String) (now : Int) (pick : Nat) :
    ((leaveUpdate (getOrCreateRoom rooms cur).2 u).userCount = 0 → ¬ (cur = "default") →
      mapLookup (disconnectHandler rooms cur u) cur = none) ∧
    (cur = "default" →
      (mapLookup (disconnectHandler rooms cur u) cur).isSome = true) ∧
    (¬ (roomId = cur) →
      (mapLookup (joinRoomHandler rooms cur u roomId now pick).rooms cur).isSome = true) := by
  refine ⟨?_, ?_, ?_⟩
  · intro h0 hne
    simp only [disconnectHandler]
    rw [if_pos ⟨h0, hne⟩]
    exact mapLookup_mapDelete_self _ _
  · intro hcur
    simp only [disconnectHandler]
    rw [if_neg (fun hc => hc.2 hcur)]
    rw [mapLookup_mapSet_self]
    rfl
  · intro hne
    simp only [joinRoomHandler]
    rw [if_neg hne]
    by_cases hc : cur = (if roomId = "" then "default" else roomId)
    · rw [← hc, mapLookup_mapSet_self]
      rfl
    · rw [mapLookup_mapSet_ne _ _ _ _ hc]
      exact isSome_mapLookup_getOrCreateRoom _ _ _ (by rw [mapLookup_mapSet_self]; rfl)

/-- A store holding only the default room with one member, for the C4
witness. -/
def roomsDefaultEx : RoomMap :=
  [("default", { emptyRoomData with users := [("u1", u1Ex)], userCount := 1 })]

/-- Witness for the amended C4: a disconnect deletes the emptied
non-default room `"r1"`, a disconnect keeps the emptied default room,
and a room switch away from `"r1"` keeps the emptied room `"r1"`. -/
theorem C4_amended_cleanup_on_disconnect_only_witness :
    mapLookup (disconnectHandler roomsSwitchEx "r1" (some u1Ex)) "r1" = none ∧
    (mapLookup (disconnectHandler roomsDefaultEx "default" (some u1Ex)) "default").isSome
      = true ∧
    (mapLookup (joinRoomHandler roomsSwitchEx "r1" (some u1Ex) "default" 5 0).rooms "r1").isSome
      = true :=
  ⟨(C4_amended_cleanup_on_disconnect_only roomsSwitchEx "r1" (some u1Ex) "x" 0 0).1
      (by decide) (by decide),
    (C4_amended_cleanup_on_disconnect_only roomsDefaultEx "default" (some u1Ex) "x" 0 0).2.1
      rfl,
    (C4_amended_cleanup_on_disconnect_only roomsSwitchEx "r1" (some u1Ex) "default" 5 0).2.2
      (by decide)⟩

end Flam
